import Mathlib

/-!
Shallow embedding of `bagit.py` (jaraco/bagit-python): the tag-file codec,
the manifest codec, bag loading, and the validation engine, together with
theorems settling the specification claims about them.

Python byte strings are modelled as Lean `String`s whose characters stand
for the individual bytes (all relevant data is ASCII except the UTF-8
byte-order mark, whose three bytes are modelled as the three characters
with the corresponding code points).  Exceptions are modelled with the
`PyErr` inductive and fallible code returns `Except PyErr _`.  The hash
functions of `hashlib` are modelled as an abstract digest function passed
as a parameter, since no claim depends on the value of a concrete digest,
only on equality comparisons between digests.
-/

/-- The whitespace characters of Python's `str.strip` / `str.isspace`. -/
def pySpaceChars : List Char := [' ', '\t', '\n', '\x0b', '\x0c', '\r']

/-- One character of Python whitespace. -/
def pyIsSpaceChar (c : Char) : Bool := pySpaceChars.contains c

/-- Python `s.isspace()`: non-empty and all whitespace. -/
def pyIsSpaceStr (s : String) : Bool :=
  !s.toList.isEmpty && s.toList.all pyIsSpaceChar

/-- Python `s.strip()`: remove leading and trailing whitespace. -/
def pyStrip (s : String) : String :=
  String.mk (((s.toList.dropWhile pyIsSpaceChar).reverse.dropWhile pyIsSpaceChar).reverse)

/-- Python `s.lstrip(chars)`: remove every leading character belonging to the set. -/
def pyLStripSet (cs : List Char) (s : String) : String :=
  String.mk (s.toList.dropWhile cs.contains)

/-- Python `s.startswith(p)`. -/
def pyStartsWith (s p : String) : Bool := List.isPrefixOf p.toList s.toList

/-- Python `s.split(sep, 1)` for a one-character separator: split on the first
occurrence only. -/
def pySplitOnce (sep : Char) (s : String) : List String :=
  let cs := s.toList
  match cs.dropWhile (fun c => c ≠ sep) with
  | [] => [String.mk (cs.takeWhile (fun c => c ≠ sep))]
  | _ :: rest => [String.mk (cs.takeWhile (fun c => c ≠ sep)), String.mk rest]

/-- Python `s.split(None, 1)`: drop leading whitespace, take the first
whitespace-free field, drop the following whitespace run; the remainder (if
non-empty) is the second field. -/
def pySplitNone1 (s : String) : List String :=
  let cs := s.toList.dropWhile pyIsSpaceChar
  match cs with
  | [] => []
  | _ =>
    let f := cs.takeWhile (fun c => !pyIsSpaceChar c)
    let rest := (cs.dropWhile (fun c => !pyIsSpaceChar c)).dropWhile pyIsSpaceChar
    match rest with
    | [] => [String.mk f]
    | _ => [String.mk f, String.mk rest]

/-- Python `s.isdigit()`: non-empty and all decimal digits. -/
def pyIsDigitStr (s : String) : Bool :=
  !s.toList.isEmpty && s.toList.all Char.isDigit

/-- Decimal digit string to a number (Python `long(s)` on a digit string). -/
def pyToNat (s : String) : Nat :=
  s.toList.foldl (fun n c => n * 10 + (c.toNat - 48)) 0

/-- Python `s.lower()` (ASCII case folding suffices for the data involved). -/
def pyLower (s : String) : String := String.mk (s.toList.map Char.toLower)

/-- The three bytes of `codecs.BOM_UTF8`, as characters. -/
def bomChars : List Char := ['\xef', '\xbb', '\xbf']

/-- `codecs.BOM_UTF8` as a string. -/
def bomStr : String := String.mk bomChars

/-- The Python exceptions raised by the embedded code.  `bagError` and
`bagValidationError` model `BagError` and its subclass `BagValidationError`;
the aggregate `BagValidationError` of `_validate_entries` additionally
carries the list of collected discrepancy strings that is interpolated into
its message.  The remaining constructors are built-in Python exceptions,
which are not subclasses of `BagError`. -/
inductive PyErr where
  | bagError (msg : String)
  | bagValidationError (msg : String) (details : List String)
  | runtimeError (msg : String)
  | typeError (msg : String)
  | indexError (msg : String)
  | valueError (msg : String)
  | ioError (msg : String)
  deriving Repr, DecidableEq

/-- `isinstance(e, BagError)`: only `BagError` and `BagValidationError` are
caught by `except BagError`. -/
def PyErr.isBagError : PyErr → Bool
  | .bagError _ => true
  | .bagValidationError _ _ => true
  | _ => false

/-- Python dict lookup on an association list (insertion order, unique keys). -/
def alookup {α : Type} (k : String) : List (String × α) → Option α
  | [] => none
  | (k', v) :: rest => if k' = k then some v else alookup k rest

/-- Python dict assignment `d[k] = v` on an association list: replace in
place if the key is present, append otherwise. -/
def aset {α : Type} (k : String) (v : α) : List (String × α) → List (String × α)
  | [] => [(k, v)]
  | (k', v') :: rest => if k' = k then (k, v) :: rest else (k', v') :: aset k v rest

/-- Python `dict(pairs)`: later pairs overwrite earlier ones. -/
def dictOfList {α : Type} (l : List (String × α)) : List (String × α) :=
  l.foldl (fun d kv => aset kv.1 kv.2 d) []

/-! ## Tag file parsing (`_parse_tags`, `_load_tag_file`) -/

/-- The loop body of `_parse_tags` over the remaining lines, carrying the
in-progress tag (`tag_name`/`tag_value`; `none` models `tag_name = None`).
A blank or all-whitespace line is skipped; a line beginning with whitespace
appends its stripped content to the value being accumulated (raising
`TypeError` when no tag has been started, as `None += str` does); any other
line strips and splits on the first colon, raising `IndexError` when the
line contains no colon, and otherwise emits the in-progress tag and starts
a new one; the in-progress tag is emitted at end of stream.  Each emission
is guarded by Python's truthiness test `if tag_name:`, which is falsy both
for `None` and for the empty string — an in-progress tag whose name is
empty (from a line whose part before the first colon strips to nothing) is
silently discarded, at a new tag start and at end of stream alike. -/
def parseTagsAux : Option (String × String) → List String → Except PyErr (List (String × String))
  | acc, [] => .ok (match acc with
      | some t => if t.1 = "" then [] else [t]
      | none => [])
  | acc, line :: rest =>
    if line.toList.isEmpty || pyIsSpaceStr line then
      parseTagsAux acc rest
    else if pyIsSpaceChar line.toList.headI then
      match acc with
      | some nv => parseTagsAux (some (nv.1, nv.2 ++ pyStrip line)) rest
      | none => .error (.typeError "unsupported operand type for +=")
    else
      match pySplitOnce ':' (pyStrip line) with
      | [n, v] =>
        match acc with
        | some t =>
          if t.1 = "" then parseTagsAux (some (pyStrip n, pyStrip v)) rest
          else
            match parseTagsAux (some (pyStrip n, pyStrip v)) rest with
            | .ok ts => .ok (t :: ts)
            | .error e => .error e
        | none => parseTagsAux (some (pyStrip n, pyStrip v)) rest
      | _ => .error (.indexError "list index out of range")

/-- The first-line treatment of `_parse_tags`: when the first line starts
with the UTF-8 byte-order mark, `lstrip` every leading byte-order-mark byte
from it. -/
def stripBomFirst : List String → List String
  | [] => []
  | l :: rest =>
    (if pyStartsWith l bomStr then pyLStripSet bomChars l else l) :: rest

/-- `_parse_tags(file)`, over the file's lines. -/
def parseTags (lines : List String) : Except PyErr (List (String × String)) :=
  parseTagsAux none (stripBomFirst lines)

/-- `_load_tag_file`: `dict(_parse_tags(file))`. -/
def loadTagFile (lines : List String) : Except PyErr (List (String × String)) :=
  match parseTags lines with
  | .ok ts => .ok (dictOfList ts)
  | .error e => .error e

/-! ## Manifest loading (`Bag._load_manifests`) -/

/-- Python `s.split(sep)` for a one-character separator, keeping empty
fields (helper for `splitChar`). -/
def splitCharAux (sep : Char) : List Char → List Char → List String
  | [], cur => [String.mk cur.reverse]
  | c :: rest, cur =>
    if c = sep then String.mk cur.reverse :: splitCharAux sep rest []
    else splitCharAux sep rest (c :: cur)

/-- Python `s.split(sep)` for a one-character separator. -/
def splitChar (sep : Char) (s : String) : List String := splitCharAux sep s.toList []

/-- `posixpath.normpath` (the host is POSIX, so `os.path.normpath` is the
POSIX variant): collapse empty and `.` components, resolve `..` against
preceding components, preserve the leading-slash count (with the `//`
special case). -/
def posixNormpath (path : String) : String :=
  if path = "" then "."
  else
    let initialSlashes : Nat :=
      if pyStartsWith path "/" then
        if pyStartsWith path "//" && !pyStartsWith path "///" then 2 else 1
      else 0
    let compList := splitChar '/' path
    let newComps := compList.foldl (fun acc comp =>
      if comp = "" || comp = "." then acc
      else if comp ≠ ".." || (initialSlashes = 0 && acc = []) ||
          (acc ≠ [] && acc.getLast? = some "..") then acc ++ [comp]
      else if acc ≠ [] then acc.dropLast
      else acc) []
    let joined := String.intercalate "/" newComps
    let p := String.mk (List.replicate initialSlashes '/') ++ joined
    if p = "" then "." else p

/-- The per-algorithm checksum-manifest entry map of a bag:
`path -> (algorithm -> hex digest)`, as nested association lists. -/
abbrev Entries := List (String × List (String × String))

/-- Per-line diagnostics of manifest loading (`logging.error` for a
malformed entry, `logging.warning` for a duplicate entry). -/
inductive ManifestDiag where
  | malformed (alg line : String)
  | duplicate (alg path : String)
  deriving Repr, DecidableEq

/-- The entry-insertion step of `_load_manifests`: store the digest under
`entries[path][alg]` (creating the inner map when the path is new),
reporting a duplicate exactly when this algorithm already has this path. -/
def manifestInsert (entries : Entries) (alg path digest : String) : Entries × Bool :=
  match alookup path entries with
  | some algmap => (aset path (aset alg digest algmap) entries, (alookup alg algmap).isSome)
  | none => (aset path [(alg, digest)] entries, false)

/-- The loop body of `_load_manifests` for one raw manifest line: strip it,
skip blank and `#`-prefixed lines, split on the first whitespace run; a line
with other than two fields yields a malformed-entry diagnostic and is
skipped; otherwise the path field's leading `*`s are stripped, the path is
normalized, and the entry is inserted. -/
def loadManifestLine (alg : String) (st : Entries × List ManifestDiag) (raw : String) :
    Entries × List ManifestDiag :=
  let line := pyStrip raw
  if line = "" || pyStartsWith line "#" then st
  else
    match pySplitNone1 line with
    | [h, p] =>
      let path := posixNormpath (pyLStripSet ['*'] p)
      let r := manifestInsert st.1 alg path h
      (r.1, st.2 ++ (if r.2 then [.duplicate alg path] else []))
    | _ => (st.1, st.2 ++ [.malformed alg line])

/-- Process every line of one manifest file. -/
def loadManifestLines (alg : String) (st : Entries × List ManifestDiag)
    (lines : List String) : Entries × List ManifestDiag :=
  lines.foldl (loadManifestLine alg) st

/-- `checksum_algos`. -/
def checksumAlgos : List String := ["md5", "sha1"]

/-- The bag root directory as seen by the loader: the optional line lists of
`bagit.txt`, `bag-info.txt`, `package-info.txt`, `manifest-md5.txt` and
`manifest-sha1.txt` (`none` meaning the file is absent), plus whether the
`data` payload directory exists. -/
structure BagDir where
  bagitLines : Option (List String)
  bagInfoLines : Option (List String)
  packageInfoLines : Option (List String)
  md5Lines : Option (List String)
  sha1Lines : Option (List String)
  deriving Repr, DecidableEq

/-- The lines of `manifest-<alg>.txt` in the bag root, when present. -/
def BagDir.manifestLinesFor (d : BagDir) : String → Option (List String)
  | "md5" => d.md5Lines
  | "sha1" => d.sha1Lines
  | _ => none

/-- `Bag.manifest_files`, reduced to the algorithms concerned: the
algorithms of `checksum_algos` whose manifest file exists in the bag root. -/
def presentAlgos (d : BagDir) : List String :=
  checksumAlgos.filter (fun a => (d.manifestLinesFor a).isSome)

/-- `Bag._load_manifests`: over every present manifest file (in
`checksum_algos` order) append its algorithm to `algs` and fold its lines
into the shared entry map. -/
def loadManifests (d : BagDir) : List String × Entries × List ManifestDiag :=
  (presentAlgos d).foldl
    (fun st a =>
      let r := loadManifestLines a (st.2.1, st.2.2) ((d.manifestLinesFor a).getD [])
      (st.1 ++ [a], r.1, r.2))
    ([], [], [])

/-! ## The Bag model and `Bag._open` -/

/-- The in-memory `Bag` object after `_open`: loaded tags of `bagit.txt`,
the metadata tag file contents (`info`), the merged manifest entries, the
declared algorithm list, the version-dependent metadata file name, and the
declared version and encoding. -/
structure Bag where
  path : String
  tags : List (String × String)
  info : List (String × String)
  entries : Entries
  algs : List String
  tagFileName : Option String
  version : String
  encoding : String
  deriving Repr, DecidableEq

/-- `Bag._open` (the loading path of `Bag.__init__`): require `bagit.txt`,
parse it, require the `BagIt-Version` and `Tag-File-Character-Encoding`
tags, dispatch on the version (0.95 uses `package-info.txt`, 0.96 uses
`bag-info.txt`, anything else is unsupported), require a UTF-8 encoding
declaration (case-insensitively), load the metadata tag file when present
(its absence leaves `info` empty), and load the manifests. -/
def Bag.openBag (path : String) (d : BagDir) : Except PyErr Bag :=
  match d.bagitLines with
  | none => .error (.bagError ("No bagit.txt found: " ++ path ++ "/bagit.txt"))
  | some blines =>
    match loadTagFile blines with
    | .error e => .error e
    | .ok tags =>
      match alookup "BagIt-Version" tags, alookup "Tag-File-Character-Encoding" tags with
      | none, _ => .error (.bagError "Missing required tag in bagit.txt: \x27BagIt-Version\x27")
      | some _, none =>
        .error (.bagError "Missing required tag in bagit.txt: \x27Tag-File-Character-Encoding\x27")
      | some version, some encoding =>
        match (if version = "0.95" then some "package-info.txt"
               else if version = "0.96" then some "bag-info.txt"
               else none) with
        | none => .error (.bagError ("Unsupported bag version: " ++ version))
        | some tagFileName =>
          if pyLower encoding ≠ "utf-8" then
            .error (.bagValidationError ("Unsupported encoding: " ++ encoding) [])
          else
            match (match (if version = "0.95" then d.packageInfoLines else d.bagInfoLines) with
                   | none => Except.ok ([] : List (String × String))
                   | some ls => loadTagFile ls) with
            | .error e => .error e
            | .ok info =>
              let lm := loadManifests d
              .ok ⟨path, tags, info, lm.2.1, lm.1, some tagFileName, version, encoding⟩

/-! ## Filesystem state and the validation engine -/

/-- The live filesystem state consulted during validation: whether the
`data` payload directory exists; the payload files in `os.walk` order —
each a relative path of the shape `data/...` (as yielded by
`Bag.payload_files`) together with its byte content; the other readable
files under the bag root (tag files, manifests, …), which the payload walk
does not visit but `os.path.exists`/`open` do see; and the directories
under the root.  A walk yields each file once, so the paths are distinct
in any state arising from a real directory. -/
structure FS where
  dataDirExists : Bool
  payload : List (String × List Nat)
  others : List (String × List Nat)
  dirs : List String
  deriving Repr, DecidableEq

/-- `Bag.payload_files`: the walked relative paths. -/
def FS.payloadPaths (fs : FS) : List String := fs.payload.map Prod.fst

/-- The byte total of `_validate_oxum`'s walk (`os.stat(...).st_size` summed). -/
def FS.totalBytes (fs : FS) : Nat := (fs.payload.map (fun pc => pc.2.length)).sum

/-- The file total of `_validate_oxum`'s walk. -/
def FS.totalFiles (fs : FS) : Nat := fs.payload.length

/-- Reading any file relative to the bag root — a payload file or any
other file under the root (`none`: no such readable file). -/
def FS.readFile (fs : FS) (rel : String) : Option (List Nat) :=
  match alookup rel fs.payload with
  | some c => some c
  | none => alookup rel fs.others

/-- An abstract stand-in for `hashlib`: algorithm name and file content to
hex digest.  No claim depends on concrete digest values, only on equality
of digests, so the digest function is a parameter of the embedding. -/
abbrev HashFn := String → List Nat → String

/-- The algorithm names `hashlib.new` accepts (the guaranteed `hashlib`
set); `_validate_entries` builds one hasher per declared algorithm,
skipping unknown ones. -/
def hashlibSupported (alg : String) : Bool :=
  ["md5", "sha1", "sha224", "sha256", "sha384", "sha512"].contains alg

/-- `Bag.compare_manifests_with_fs`: the set of manifest paths minus the
walked payload paths, and vice versa (set semantics; membership is what the
callers use, the iteration order of a Python set being arbitrary). -/
def Bag.compareManifestsWithFs (b : Bag) (fs : FS) : List String × List String :=
  let filesOnFs := fs.payloadPaths.dedup
  let filesInManifest := (b.entries.map Prod.fst).dedup
  (filesInManifest.filter (fun p => !filesOnFs.contains p),
   filesOnFs.filter (fun p => !filesInManifest.contains p))

/-- `Bag.has_oxum`. -/
def Bag.hasOxum (b : Bag) : Bool := (alookup "Payload-Oxum" b.info).isSome

/-- The `BagValidationError` message of an oxum mismatch, carrying the
observed totals and the declared counts. -/
def oxumMismatchMsg (totalFiles totalBytes fileCount byteCount : Nat) : String :=
  "Oxum error.  Found " ++ toString totalFiles ++ " files and " ++ toString totalBytes ++
    " bytes on disk; expected " ++ toString fileCount ++ " files and " ++
    toString byteCount ++ " bytes."

/-- `Bag._validate_oxum`: a no-op when no `Payload-Oxum` tag is present;
otherwise split the tag on the first `.` (a tag without `.` fails the
two-variable unpacking with `ValueError`), require both halves to be digit
strings (`BagError` otherwise), recompute the byte and file totals by
walking the payload directory with `stat` only, and raise a
`BagValidationError` carrying observed and declared values exactly when
either total differs. -/
def Bag.validateOxum (b : Bag) (fs : FS) : Except PyErr Unit :=
  match alookup "Payload-Oxum" b.info with
  | none => .ok ()
  | some oxum =>
    match pySplitOnce '.' oxum with
    | [byteS, fileS] =>
      if !(pyIsDigitStr byteS && pyIsDigitStr fileS) then
        .error (.bagError ("Invalid oxum: " ++ oxum))
      else
        let byteCount := pyToNat byteS
        let fileCount := pyToNat fileS
        if fileCount ≠ fs.totalFiles || byteCount ≠ fs.totalBytes then
          .error (.bagValidationError
            (oxumMismatchMsg fs.totalFiles fs.totalBytes fileCount byteCount) [])
        else .ok ()
    | _ => .error (.valueError "need more than 1 value to unpack")

/-- `Bag._calculate_file_hashes`: `os.path.exists` consults the real
filesystem, not the payload walk — an existing file anywhere under the
root (a tag file, say) is read once and digested under every requested
algorithm; a path that exists only as a directory passes the existence
check and then fails at `open` with `IOError`; a path that does not exist
at all raises `BagValidationError`. -/
def calculateFileHashes (hash : HashFn) (fs : FS) (bagPath rel : String)
    (fAlgs : List String) : Except PyErr (List (String × String)) :=
  match fs.readFile rel with
  | some content => .ok (fAlgs.map (fun a => (a, hash a content)))
  | none =>
    if fs.dirs.contains rel then
      .error (.ioError (bagPath ++ "/" ++ rel ++ " is a directory"))
    else
      .error (.bagValidationError (bagPath ++ "/" ++ rel ++ " does not exist") [])

/-- The digest-comparison step for one entry: every algorithm whose
computed digest differs from the stored one contributes the discrepancy
string `"<full path> (<alg>)"`. -/
def entryErrs (bagPath rel : String) (hashes fHashes : List (String × String)) :
    List String :=
  fHashes.filterMap (fun ac =>
    match alookup ac.1 hashes with
    | some stored =>
      if stored ≠ ac.2 then some (bagPath ++ "/" ++ rel ++ " (" ++ ac.1 ++ ")") else none
    | none => none)

/-- The per-entry loop of `Bag._validate_entries`: for each manifest entry,
re-hash the file with the algorithms both declared for it and supported
(`f_hashers`), appending every digest mismatch to the running discrepancy
list; a `BagValidationError` from `_calculate_file_hashes` (a listed file
that does not exist) is re-raised immediately. -/
def entriesLoop (hash : HashFn) (bagPath : String) (fs : FS) (hashers : List String)
    (errs : List String) : Entries → Except PyErr (List String)
  | [] => .ok errs
  | (rel, hashes) :: rest =>
    let fAlgs := hashers.filter (fun a => (alookup a hashes).isSome)
    match calculateFileHashes hash fs bagPath rel fAlgs with
    | .error e => .error e
    | .ok fHashes =>
      entriesLoop hash bagPath fs hashers (errs ++ entryErrs bagPath rel hashes fHashes) rest

/-- The message of the aggregate checksum-validation error. -/
def aggregateMsg (b : Bag) (errors : List String) : String :=
  b.path ++ ": " ++ toString errors.length ++ " files failed checksum validation: " ++
    String.intercalate ", " errors

/-- The hasher-construction loop of `_validate_entries`.  The code wraps
`hashlib.new(alg)` in `try/except KeyError`, but `hashlib.new` raises
`ValueError` for an unknown algorithm, which the clause does not catch —
the warn-and-skip branch is dead code.  So the loop returns one hasher per
declared algorithm, raising `ValueError` at the first unsupported name. -/
def buildHashers : List String → Except PyErr (List String)
  | [] => .ok []
  | alg :: rest =>
    if hashlibSupported alg then
      match buildHashers rest with
      | .ok hs => .ok (alg :: hs)
      | .error e => .error e
    else .error (.valueError ("unsupported hash type " ++ alg))

/-- `Bag._validate_entries`: collect the paths present only in the
manifests and only on the filesystem, build one hasher per declared
algorithm (`ValueError` escapes at the first unsupported name, since the
`except KeyError` clause is dead code; the `RuntimeError` for an empty
hasher dict therefore fires only when the algorithm list is empty), run
the per-entry digest comparison, and raise one aggregate
`BagValidationError` carrying the collected discrepancy list when it is
non-empty. -/
def Bag.validateEntries (hash : HashFn) (b : Bag) (fs : FS) : Except PyErr Unit :=
  let cmp := b.compareManifestsWithFs fs
  let errors0 := cmp.1 ++ cmp.2
  match buildHashers b.algs with
  | .error e => .error e
  | .ok hashers =>
    if hashers.isEmpty then
      .error (.runtimeError (b.path ++
        ": Unable to validate bag contents: none of the hash algorithms in " ++
        String.intercalate ", " b.algs ++ " are supported!"))
    else
      match entriesLoop hash b.path fs hashers errors0 b.entries with
      | .error e => .error e
      | .ok errors =>
        if errors.isEmpty then .ok ()
        else .error (.bagValidationError (aggregateMsg b errors) errors)

/-- `Bag._validate_contents`: fast mode demands a `Payload-Oxum` tag; the
oxum check then runs unconditionally (it is a no-op without the tag), and
the full per-entry check runs only when `fast` is false. -/
def Bag.validateContents (hash : HashFn) (b : Bag) (fs : FS) (fast : Bool) :
    Except PyErr Unit :=
  if fast && !b.hasOxum then
    .error (.bagValidationError
      "cannot validate Bag with fast=True if Bag lacks a Payload-Oxum" [])
  else
    match b.validateOxum fs with
    | .error e => .error e
    | .ok _ => if !fast then b.validateEntries hash fs else .ok ()

/-- `Bag._validate_structure`: the payload directory, at least one manifest
file and `bagit.txt` must exist, checked in that order. -/
def Bag.validateStructure (_b : Bag) (d : BagDir) (fs : FS) : Except PyErr Unit :=
  if !fs.dataDirExists then .error (.bagValidationError "Missing data directory" [])
  else if (presentAlgos d).isEmpty then
    .error (.bagValidationError "Missing manifest file" [])
  else if d.bagitLines.isNone then .error (.bagValidationError "Missing bagit.txt" [])
  else .ok ()

/-- `Bag._validate_bagittxt`: re-open `bagit.txt` (an `IOError` if it is
gone) and reject a first line beginning with the UTF-8 byte-order mark. -/
def Bag.validateBagitTxt (_b : Bag) (d : BagDir) : Except PyErr Unit :=
  match d.bagitLines with
  | none => .error (.ioError "No such file or directory: bagit.txt")
  | some lines =>
    match lines with
    | [] => .ok ()
    | l :: _ =>
      if pyStartsWith l bomStr then
        .error (.bagValidationError "bagit.txt must not contain a byte-order mark" [])
      else .ok ()

/-- `Bag.validate`: structure, then the `bagit.txt` sanity check, then the
contents phase. -/
def Bag.validate (hash : HashFn) (b : Bag) (d : BagDir) (fs : FS) (fast : Bool) :
    Except PyErr Unit :=
  match b.validateStructure d fs with
  | .error e => .error e
  | .ok _ =>
    match b.validateBagitTxt d with
    | .error e => .error e
    | .ok _ => b.validateContents hash fs fast

/-- `Bag.is_valid`: run `validate`, return `False` on a `BagError` (or
subclass), `True` on success; any other exception propagates. -/
def Bag.isValid (hash : HashFn) (b : Bag) (d : BagDir) (fs : FS) (fast : Bool) :
    Except PyErr Bool :=
  match b.validate hash d fs fast with
  | .ok _ => .ok true
  | .error e => if e.isBagError then .ok false else .error e

/-! ## Manifest generation (`_make_manifest`, `_walk`, `_manifest_line`) -/

/-- `_manifest_line`: md5-digest the file content, returning the digest, the
walked file name and the byte count. -/
def manifestLineOf (md5 : List Nat → String) (pc : String × List Nat) :
    String × String × Nat :=
  (md5 pc.2, pc.1, pc.2.length)

/-- `_make_manifest` over the `_walk` result (the payload files in walk
order, paths already `/`-separated): one `digest  path\n` line per walked
file, in walk order, plus the `"<total bytes>.<file count>"` oxum string. -/
def makeManifest (md5 : List Nat → String) (walked : List (String × List Nat)) :
    List String × String :=
  let checksums := walked.map (manifestLineOf md5)
  (checksums.map (fun dfb => dfb.1 ++ "  " ++ dfb.2.1 ++ "\n"),
   toString ((checksums.map (fun dfb => dfb.2.2)).sum) ++ "." ++ toString checksums.length)

/-- The digest-mismatch discrepancies that the per-entry loop contributes
when every listed file exists: for each entry in order, the mismatch
strings of the algorithms re-hashed for it. -/
def mismatchesOf (hash : HashFn) (bagPath : String) (fs : FS) (hashers : List String) :
    Entries → List String
  | [] => []
  | (rel, hashes) :: rest =>
    (match fs.readFile rel with
     | none => []
     | some content =>
       entryErrs bagPath rel hashes
         ((hashers.filter (fun a => (alookup a hashes).isSome)).map
           (fun a => (a, hash a content)))) ++
      mismatchesOf hash bagPath fs hashers rest

/-- The full discrepancy list of full-fixity validation in the order the
code collects it: manifest-only paths, then filesystem-only paths, then the
per-entry digest mismatches. -/
def Bag.allDiscrepancies (hash : HashFn) (b : Bag) (fs : FS) : List String :=
  (b.compareManifestsWithFs fs).1 ++ (b.compareManifestsWithFs fs).2 ++
    mismatchesOf hash b.path fs b.algs b.entries

/-- Whether an `Except` computation succeeded. -/
def isOkE {ε α : Type} : Except ε α → Bool
  | .ok _ => true
  | .error _ => false

/-- The inputs on which the `_parse_tags` loop runs to completion, given
whether a tag is already in progress: blank lines are always fine, a
continuation line needs an in-progress tag, and a tag-starting line needs a
colon. -/
def tagLinesOk (haveTag : Bool) : List String → Bool
  | [] => true
  | l :: rest =>
    if l.toList.isEmpty || pyIsSpaceStr l then tagLinesOk haveTag rest
    else if pyIsSpaceChar l.toList.headI then haveTag && tagLinesOk true rest
    else ((pySplitOnce ':' (pyStrip l)).length == 2) && tagLinesOk true rest

/-! ## Concrete instances used by witnesses and counterexamples -/

/-- A concrete stand-in digest function: algorithm name and content length. -/
def demoHash : HashFn := fun alg content => alg ++ "-" ++ toString content.length

/-- A bag declaring oxum `5.1` whose single payload file is empty and whose
md5 manifest entry matches `demoHash`. -/
def oxBag : Bag :=
  ⟨"b", [("BagIt-Version", "0.96"), ("Tag-File-Character-Encoding", "UTF-8")],
   [("Payload-Oxum", "5.1")], [("data/x", [("md5", "md5-0")])], ["md5"],
   some "bag-info.txt", "0.96", "UTF-8"⟩

/-- The filesystem for `oxBag`: one zero-byte payload file. -/
def oxFs : FS := ⟨true, [("data/x", [])], [], []⟩

/-- A bag declaring oxum `0.1`. -/
def zeroOxBag : Bag :=
  ⟨"b", [("BagIt-Version", "0.96"), ("Tag-File-Character-Encoding", "UTF-8")],
   [("Payload-Oxum", "0.1")], [("data/zero", [("md5", "md5-0")])], ["md5"],
   some "bag-info.txt", "0.96", "UTF-8"⟩

/-- One zero-byte payload file. -/
def zeroFs : FS := ⟨true, [("data/zero", [])], [], []⟩

/-- A bag whose manifest lists a file that is not on the filesystem. -/
def goneBag : Bag :=
  ⟨"b", [("BagIt-Version", "0.96"), ("Tag-File-Character-Encoding", "UTF-8")], [],
   [("data/gone", [("md5", "md5-0")])], ["md5"], some "bag-info.txt", "0.96", "UTF-8"⟩

/-- The filesystem for `goneBag`: the listed file is missing and an
untracked extra file is present, so there are two set-comparison
discrepancies. -/
def goneFs : FS := ⟨true, [("data/extra", [7])], [], []⟩

/-- A bag whose only declared algorithm is unknown to `hashlib`. -/
def badAlgBag : Bag :=
  ⟨"b", [("BagIt-Version", "0.96"), ("Tag-File-Character-Encoding", "UTF-8")], [],
   [("data/x", [("crc32", "deadbeef")])], ["crc32"], some "bag-info.txt", "0.96", "UTF-8"⟩

/-- A payload walk visiting `data/b` before `data/a`. -/
def walkBA : List (String × List Nat) := [("data/b", []), ("data/a", [])]

/-- A bag with no declared algorithm at all. -/
def noAlgBag : Bag :=
  ⟨"b", [("BagIt-Version", "0.96"), ("Tag-File-Character-Encoding", "UTF-8")], [],
   [], [], some "bag-info.txt", "0.96", "UTF-8"⟩

/-- A bag whose manifest also lists `bagit.txt` — a file that exists under
the bag root but is never visited by the payload walk. -/
def mixBag : Bag :=
  ⟨"b", [("BagIt-Version", "0.96"), ("Tag-File-Character-Encoding", "UTF-8")], [],
   [("data/x", [("md5", "md5-0")]), ("bagit.txt", [("md5", "md5-9")])], ["md5"],
   some "bag-info.txt", "0.96", "UTF-8"⟩

/-- The filesystem for `mixBag`: the payload walk sees `data/x` and an
untracked `data/y`, while `bagit.txt` exists outside the walk. -/
def mixFs : FS :=
  ⟨true, [("data/x", []), ("data/y", [2])],
   [("bagit.txt", [1, 2, 3, 4, 5, 6, 7, 8, 9])], []⟩

/-- Every algorithm mentioned in an entry map belongs to the set `S`. -/
def entriesAlgsIn (S : List String) (entries : Entries) : Prop :=
  ∀ p am, (p, am) ∈ entries → ∀ a hd, (a, hd) ∈ am → a ∈ S

/-- A well-formed bag root with both an md5 and a sha1 manifest listing the
same payload path. -/
def dir9 : BagDir :=
  ⟨some ["BagIt-Version: 0.96", "Tag-File-Character-Encoding: UTF-8"],
   none, none, some ["abc  data/x"], some ["def  data/x"]⟩

/-- The bag that loading `dir9` produces. -/
def bag9 : Bag :=
  ⟨"b", [("BagIt-Version", "0.96"), ("Tag-File-Character-Encoding", "UTF-8")], [],
   [("data/x", [("md5", "abc"), ("sha1", "def")])], ["md5", "sha1"],
   some "bag-info.txt", "0.96", "UTF-8"⟩

/-! ## Theorems -/

/-- C7 (amended): `_make_manifest` writes one line per walked payload file
in the form digest, two spaces, path, newline, and returns the
`"<bytes>.<files>"` oxum string; the lines are written in walk order (the
output is a deterministic function of the walked sequence, hence
byte-stable across repeated calls on the same input), not sorted by path. -/
theorem make_manifest_lines (md5 : List Nat → String) (walked : List (String × List Nat)) :
    makeManifest md5 walked =
      (walked.map (fun pc => md5 pc.2 ++ "  " ++ pc.1 ++ "\n"),
       toString ((walked.map (fun pc => pc.2.length)).sum) ++ "." ++ toString walked.length) := by
  unfold makeManifest manifestLineOf
  simp only [List.map_map, List.length_map]
  rfl

/-- C7 (counterexample): on a walk that visits `data/b` before `data/a`,
the manifest lines come out in walk order with `data/b` first, although
`"data/a" < "data/b"` — the entries are not written sorted by path. -/
theorem make_manifest_not_sorted :
    (makeManifest (fun c => "h" ++ toString c.length) walkBA).1 =
      ["h0  data/b\n", "h0  data/a\n"] ∧ ¬ ("data/b" ≤ "data/a") := by
  constructor
  · rfl
  · simp only [not_le, String.lt_iff_toList_lt]
    decide

/-- C2 (counterexample): on a bag whose full-fixity check succeeds but
whose declared oxum `5.1` disagrees with the payload, `validate` with
`fast=False` still fails with the oxum-mismatch error — the oxum
comparison is *not* skipped in full mode, so the two modes are not
mutually exclusive as claimed. -/
theorem contents_modes_not_exclusive :
    oxBag.validateEntries demoHash oxFs = .ok () ∧
    oxBag.validateContents demoHash oxFs false =
      .error (.bagValidationError (oxumMismatchMsg 1 0 1 5) []) := by
  exact ⟨rfl, rfl⟩

/-- Helper: the fast contents phase is the mode check followed by the oxum
comparison alone. -/
theorem validateContents_fast_eq (hash : HashFn) (b : Bag) (fs : FS) :
    b.validateContents hash fs true =
      (if b.hasOxum then b.validateOxum fs
       else .error (.bagValidationError
         "cannot validate Bag with fast=True if Bag lacks a Payload-Oxum" [])) := by
  unfold Bag.validateContents
  cases h : b.hasOxum
  · simp [h]
  · simp only [h, Bool.not_true, Bool.and_false, Bool.false_eq_true, if_false, if_true]
    cases ho : b.validateOxum fs with
    | error e => simp
    | ok u => cases u; simp

/-- Helper: the full contents phase is the oxum comparison followed by the
per-entry check. -/
theorem validateContents_full_eq (hash : HashFn) (b : Bag) (fs : FS) :
    b.validateContents hash fs false =
      (match b.validateOxum fs with
       | .error e => .error e
       | .ok _ => b.validateEntries hash fs) := by
  unfold Bag.validateContents
  cases ho : b.validateOxum fs with
  | error e => simp [ho]
  | ok u => cases u; simp [ho]

/-- Helper: `_validate_oxum` on a present, well-formed `Payload-Oxum` tag
reduces to the totals comparison. -/
theorem validateOxum_eq (b : Bag) (fs : FS) (oxum byteS fileS : String)
    (h1 : alookup "Payload-Oxum" b.info = some oxum)
    (h2 : pySplitOnce '.' oxum = [byteS, fileS])
    (h3 : pyIsDigitStr byteS = true) (h4 : pyIsDigitStr fileS = true) :
    b.validateOxum fs =
      (if pyToNat fileS ≠ fs.totalFiles || pyToNat byteS ≠ fs.totalBytes then
        .error (.bagValidationError
          (oxumMismatchMsg fs.totalFiles fs.totalBytes (pyToNat fileS) (pyToNat byteS)) [])
       else .ok ()) := by
  unfold Bag.validateOxum
  rw [h1]
  simp only [h2, h3, h4]
  simp

/-- C2 (amended): with `fast=True` only the oxum phase runs (after the
mode-availability check); with `fast=False` the oxum comparison runs first
(a no-op only when no `Payload-Oxum` tag is present) and then the full
per-entry fixity check. -/
theorem validate_contents_modes (hash : HashFn) (b : Bag) (fs : FS) :
    (b.validateContents hash fs true =
      (if b.hasOxum then b.validateOxum fs
       else .error (.bagValidationError
         "cannot validate Bag with fast=True if Bag lacks a Payload-Oxum" []))) ∧
    (b.validateContents hash fs false =
      (match b.validateOxum fs with
       | .error e => .error e
       | .ok _ => b.validateEntries hash fs)) :=
  ⟨validateContents_fast_eq hash b fs, validateContents_full_eq hash b fs⟩

/-- C3: fast validation on a bag without a `Payload-Oxum` tag raises the
mode-unavailable error; with the tag present and well formed it recomputes
the totals by the stat walk and raises the oxum-mismatch error carrying
both the observed and the declared values exactly when either total
differs; fast mode performs no hashing (its result does not depend on the
digest function); and the bag declaring oxum `0.1` over a single zero-byte
payload file validates successfully in fast mode. -/
theorem fast_mode_oxum (hash : HashFn) (b : Bag) (fs : FS) :
    (b.hasOxum = false →
      b.validateContents hash fs true =
        .error (.bagValidationError
          "cannot validate Bag with fast=True if Bag lacks a Payload-Oxum" [])) ∧
    (∀ oxum byteS fileS, alookup "Payload-Oxum" b.info = some oxum →
      pySplitOnce '.' oxum = [byteS, fileS] →
      pyIsDigitStr byteS = true → pyIsDigitStr fileS = true →
      ((pyToNat fileS ≠ fs.totalFiles ∨ pyToNat byteS ≠ fs.totalBytes) →
        b.validateContents hash fs true =
          .error (.bagValidationError
            (oxumMismatchMsg fs.totalFiles fs.totalBytes (pyToNat fileS) (pyToNat byteS))
            [])) ∧
      (pyToNat fileS = fs.totalFiles → pyToNat byteS = fs.totalBytes →
        b.validateContents hash fs true = .ok ())) ∧
    (∀ hash' : HashFn,
      b.validateContents hash fs true = b.validateContents hash' fs true) ∧
    (zeroOxBag.validateContents demoHash zeroFs true = .ok ()) := by
  refine ⟨?_, ?_, ?_, ?_⟩
  · intro h
    rw [validateContents_fast_eq]
    simp [h]
  · intro oxum byteS fileS h1 h2 h3 h4
    have hox : b.hasOxum = true := by simp [Bag.hasOxum, h1]
    constructor
    · intro h5
      have hc : (pyToNat fileS ≠ fs.totalFiles || pyToNat byteS ≠ fs.totalBytes) = true := by
        rcases h5 with h | h <;> simp [h]
      rw [validateContents_fast_eq, if_pos (by simp [hox]),
        validateOxum_eq b fs oxum byteS fileS h1 h2 h3 h4, if_pos hc]
    · intro h5 h6
      rw [validateContents_fast_eq, if_pos (by simp [hox]),
        validateOxum_eq b fs oxum byteS fileS h1 h2 h3 h4]
      simp [h5, h6]
  · intro hash'
    rw [validateContents_fast_eq, validateContents_fast_eq]
  · rfl

/-- C3 (witness): on the concrete bag declaring oxum `5.1` over one
zero-byte payload file, fast validation fails with the oxum-mismatch
error carrying observed totals (1 file, 0 bytes) and declared counts
(1 file, 5 bytes). -/
theorem fast_mode_oxum_witness :
    oxBag.validateContents demoHash oxFs true =
      .error (.bagValidationError (oxumMismatchMsg 1 0 1 5) []) := by
  have h := ((fast_mode_oxum demoHash oxBag oxFs).2.1 "5.1" "5" "1" rfl rfl rfl rfl).1
    (by right; decide)
  simpa using h

/-- Helper: the one-step unfolding of the hasher loop on a declared
algorithm. -/
theorem buildHashers_cons (alg : String) (rest : List String) :
    buildHashers (alg :: rest) =
      (if hashlibSupported alg then
        match buildHashers rest with
        | .ok hs => .ok (alg :: hs)
        | .error e => .error e
      else .error (.valueError ("unsupported hash type " ++ alg))) := rfl

/-- Helper: with every algorithm supported, the hasher loop returns one
hasher per declared algorithm. -/
theorem buildHashers_ok (algs : List String) (h : ∀ a ∈ algs, hashlibSupported a = true) :
    buildHashers algs = .ok algs := by
  induction algs with
  | nil => rfl
  | cons a as ih =>
    have ha := h a (by simp)
    rw [buildHashers_cons, if_pos ha, ih (fun x hx => h x (by simp [hx]))]

/-- Helper: the hasher loop raises `ValueError` at the first unsupported
algorithm name. -/
theorem buildHashers_err :
    ∀ (pre : List String) (a : String) (post : List String),
      (∀ x ∈ pre, hashlibSupported x = true) → hashlibSupported a = false →
      buildHashers (pre ++ a :: post) =
        .error (.valueError ("unsupported hash type " ++ a)) := by
  intro pre
  induction pre with
  | nil =>
    intro a post _ ha
    rw [List.nil_append, buildHashers_cons, if_neg (by rw [ha]; simp)]
  | cons x xs ih =>
    intro a post hpre ha
    have hx := hpre x (by simp)
    rw [List.cons_append, buildHashers_cons, if_pos hx,
      ih a post (fun y hy => hpre y (by simp [hy])) ha]

/-- C10: `is_valid` returns `True` exactly when `validate` raises nothing
and `False` exactly when `validate` raises a `BagError` or a subclass; any
exception not derived from `BagError` propagates out of `is_valid` instead
of producing `False`.  The `RuntimeError` of the per-entry check fires
when none of the bag's declared algorithms is supported in the only way
that reaches it — an empty declared list — because the `except KeyError`
clause is dead code against `hashlib.new`'s `ValueError`: a non-empty list
containing an unsupported name instead raises that equally uncaught
`ValueError` at the first such name.  Both propagate. -/
theorem is_valid_catches_bag_errors (hash : HashFn) (b : Bag) (d : BagDir) (fs : FS)
    (fast : Bool) :
    (b.isValid hash d fs fast = .ok true ↔ b.validate hash d fs fast = .ok ()) ∧
    (b.isValid hash d fs fast = .ok false ↔
      ∃ e, b.validate hash d fs fast = .error e ∧ e.isBagError = true) ∧
    (∀ e, b.isValid hash d fs fast = .error e ↔
      (b.validate hash d fs fast = .error e ∧ e.isBagError = false)) ∧
    (b.algs = [] →
      (b.validateEntries hash fs = .error (.runtimeError (b.path ++
        ": Unable to validate bag contents: none of the hash algorithms in " ++
        String.intercalate ", " b.algs ++ " are supported!")) ∧
       ∀ m, (PyErr.runtimeError m).isBagError = false)) ∧
    (∀ pre a post, b.algs = pre ++ a :: post →
      (∀ x ∈ pre, hashlibSupported x = true) → hashlibSupported a = false →
      (b.validateEntries hash fs = .error (.valueError ("unsupported hash type " ++ a)) ∧
       ∀ m, (PyErr.valueError m).isBagError = false)) := by
  refine ⟨?_, ?_, ?_, ?_, ?_⟩
  · unfold Bag.isValid
    cases hv : b.validate hash d fs fast with
    | ok u => cases u; simp
    | error e => cases hb : e.isBagError <;> simp [hb]
  · unfold Bag.isValid
    cases hv : b.validate hash d fs fast with
    | ok u => cases u; simp
    | error e => cases hb : e.isBagError <;> simp [hb]
  · intro e'
    unfold Bag.isValid
    cases hv : b.validate hash d fs fast with
    | ok u => cases u; simp
    | error e =>
      cases hb : e.isBagError
      · simp only [hb, Bool.false_eq_true, if_false, Except.error.injEq]
        exact ⟨fun he => ⟨he, he ▸ hb⟩, fun h => h.1⟩
      · simp [hb]
        intro he
        subst he
        exact hb
  · intro h
    refine ⟨?_, fun m => rfl⟩
    unfold Bag.validateEntries
    simp [h, buildHashers]
  · intro pre a post hsplit hpre ha
    refine ⟨?_, fun m => rfl⟩
    unfold Bag.validateEntries
    rw [hsplit, buildHashers_err pre a post hpre ha]

/-- C10 (witness): with no declared algorithm at all the per-entry check
raises the `RuntimeError`; with only the unsupported `crc32` declared it
raises the uncaught `ValueError`; neither is a `BagError`, so both
propagate out of `is_valid`. -/
theorem is_valid_catches_bag_errors_witness :
    noAlgBag.validateEntries demoHash oxFs = .error (.runtimeError (noAlgBag.path ++
      ": Unable to validate bag contents: none of the hash algorithms in " ++
      String.intercalate ", " noAlgBag.algs ++ " are supported!")) ∧
    badAlgBag.validateEntries demoHash oxFs =
      .error (.valueError "unsupported hash type crc32") ∧
    (PyErr.runtimeError "boom").isBagError = false ∧
    (PyErr.valueError "boom").isBagError = false := by
  have h4 := (is_valid_catches_bag_errors demoHash noAlgBag
    ⟨some [], none, none, some [], none⟩ oxFs false).2.2.2.1 rfl
  have h5 := (is_valid_catches_bag_errors demoHash badAlgBag
    ⟨some [], none, none, some [], none⟩ oxFs false).2.2.2.2 [] "crc32" []
    rfl (by decide) rfl
  exact ⟨h4.1, h5.1, h4.2 "boom", h5.2 "boom"⟩

/-- Helper: when every manifest-listed file exists on the filesystem, the
per-entry loop completes without raising and returns the accumulated
discrepancies followed by the digest mismatches of every entry. -/
theorem entriesLoop_ok (hash : HashFn) (bagPath : String) (fs : FS) (hashers : List String)
    (entries : Entries) :
    ∀ errs : List String,
      (∀ pe ∈ entries, (fs.readFile pe.1).isSome) →
      entriesLoop hash bagPath fs hashers errs entries =
        .ok (errs ++ mismatchesOf hash bagPath fs hashers entries) := by
  induction entries with
  | nil => intro errs _; simp [entriesLoop, mismatchesOf]
  | cons pe rest ih =>
    intro errs h
    obtain ⟨rel, hashes⟩ := pe
    have hrel : (fs.readFile rel).isSome := h (rel, hashes) (by simp)
    obtain ⟨content, hc⟩ := Option.isSome_iff_exists.mp hrel
    have hm : mismatchesOf hash bagPath fs hashers ((rel, hashes) :: rest) =
        entryErrs bagPath rel hashes
          ((hashers.filter (fun a => (alookup a hashes).isSome)).map
            (fun a => (a, hash a content))) ++ mismatchesOf hash bagPath fs hashers rest := by
      show (match fs.readFile rel with
            | none => []
            | some content =>
              entryErrs bagPath rel hashes
                ((hashers.filter (fun a => (alookup a hashes).isSome)).map
                  (fun a => (a, hash a content)))) ++
          mismatchesOf hash bagPath fs hashers rest = _
      rw [hc]
    unfold entriesLoop calculateFileHashes
    rw [hc]
    simp only []
    rw [ih _ (fun pe hpe => h pe (by simp [hpe]))]
    rw [hm, ← List.append_assoc]

/-- Helper: with every listed file readable and a non-empty, all-supported
algorithm list, `_validate_entries` reduces to the emptiness test on the
full discrepancy list. -/
theorem validateEntries_eq (hash : HashFn) (b : Bag) (fs : FS)
    (hex : ∀ pe ∈ b.entries, (fs.readFile pe.1).isSome)
    (hsup : ∀ a ∈ b.algs, hashlibSupported a = true)
    (hne : b.algs ≠ []) :
    b.validateEntries hash fs =
      (if (b.allDiscrepancies hash fs).isEmpty then .ok ()
       else .error (.bagValidationError (aggregateMsg b (b.allDiscrepancies hash fs))
         (b.allDiscrepancies hash fs))) := by
  have hbe : b.algs.isEmpty = false := by
    cases hfe : b.algs.isEmpty
    · rfl
    · exact absurd (List.isEmpty_iff.mp hfe) hne
  unfold Bag.validateEntries
  rw [buildHashers_ok b.algs hsup]
  simp only [hbe, Bool.false_eq_true, if_false]
  rw [entriesLoop_ok hash b.path fs b.algs b.entries _ hex]
  rfl

/-- C1 (amended): when every manifest-listed path exists as a readable
file — in the payload walk or anywhere else under the bag root — and the
declared algorithm list is non-empty and supported, full-fixity validation
collects every discrepancy across all entries — the manifest-only paths
(which, when they name an existing file outside the walk, are hashed and
still enumerated), the filesystem-only paths, and every per-entry digest
mismatch — succeeds when there are none, and otherwise raises exactly one
aggregate `BagValidationError` enumerating the whole list; but (see the
counterexample) a manifest path missing from the filesystem altogether
aborts the loop at once with a non-aggregate missing-file error. -/
theorem full_fixity_aggregates (hash : HashFn) (b : Bag) (fs : FS)
    (hex : ∀ pe ∈ b.entries, (fs.readFile pe.1).isSome)
    (hsup : ∀ a ∈ b.algs, hashlibSupported a = true)
    (hne : b.algs ≠ []) :
    (b.allDiscrepancies hash fs ≠ [] →
      b.validateEntries hash fs =
        .error (.bagValidationError (aggregateMsg b (b.allDiscrepancies hash fs))
          (b.allDiscrepancies hash fs))) ∧
    (b.allDiscrepancies hash fs = [] → b.validateEntries hash fs = .ok ()) ∧
    (∀ p ∈ (b.compareManifestsWithFs fs).1, p ∈ b.allDiscrepancies hash fs) ∧
    (∀ p ∈ (b.compareManifestsWithFs fs).2, p ∈ b.allDiscrepancies hash fs) ∧
    (∀ s ∈ mismatchesOf hash b.path fs b.algs b.entries,
      s ∈ b.allDiscrepancies hash fs) := by
  refine ⟨?_, ?_, ?_, ?_, ?_⟩
  · intro hd
    have hie : (b.allDiscrepancies hash fs).isEmpty = false := by
      cases hfe : (b.allDiscrepancies hash fs).isEmpty
      · rfl
      · exact absurd (List.isEmpty_iff.mp hfe) hd
    rw [validateEntries_eq hash b fs hex hsup hne, hie]
    rfl
  · intro hd
    rw [validateEntries_eq hash b fs hex hsup hne, hd]
    rfl
  · intro p hp
    exact List.mem_append_left _ (List.mem_append_left _ hp)
  · intro p hp
    exact List.mem_append_left _ (List.mem_append_right _ hp)
  · intro s hs
    exact List.mem_append_right _ hs

/-- C1 (witness): a concrete full-fixity run whose manifest also lists the
existing non-payload file `bagit.txt`: the file is hashed without aborting,
and the single aggregate error enumerates both discrepancies — the
manifest-only `bagit.txt` and the untracked `data/y`. -/
theorem full_fixity_aggregates_witness :
    mixBag.validateEntries demoHash mixFs =
      .error (.bagValidationError (aggregateMsg mixBag ["bagit.txt", "data/y"])
        ["bagit.txt", "data/y"]) := by
  have h := (full_fixity_aggregates demoHash mixBag mixFs (by decide) (by decide)
    (by decide)).1 (by decide)
  exact h

/-- C1 (counterexample): with two discrepancies present — `data/gone` only
in the manifest and `data/extra` only on the filesystem — validation does
not raise the aggregate error enumerating them; it stops at the first
missing file with a non-aggregate `BagValidationError` whose discrepancy
list is empty. -/
theorem full_fixity_stops_at_missing_file :
    goneBag.compareManifestsWithFs goneFs = (["data/gone"], ["data/extra"]) ∧
    goneBag.validateEntries demoHash goneFs =
      .error (.bagValidationError "b/data/gone does not exist" []) ∧
    PyErr.bagValidationError "b/data/gone does not exist" [] ≠
      PyErr.bagValidationError (aggregateMsg goneBag ["data/gone", "data/extra"])
        ["data/gone", "data/extra"] := by
  refine ⟨rfl, rfl, by decide⟩

/-- Helper: the one-step unfolding of the `_parse_tags` loop on a line. -/
theorem parseTagsAux_cons (acc : Option (String × String)) (line : String)
    (rest : List String) :
    parseTagsAux acc (line :: rest) =
      (if line.toList.isEmpty || pyIsSpaceStr line then
        parseTagsAux acc rest
      else if pyIsSpaceChar line.toList.headI then
        match acc with
        | some nv => parseTagsAux (some (nv.1, nv.2 ++ pyStrip line)) rest
        | none => .error (.typeError "unsupported operand type for +=")
      else
        match pySplitOnce ':' (pyStrip line) with
        | [n, v] =>
          match acc with
          | some t =>
            if t.1 = "" then parseTagsAux (some (pyStrip n, pyStrip v)) rest
            else
              match parseTagsAux (some (pyStrip n, pyStrip v)) rest with
              | .ok ts => .ok (t :: ts)
              | .error e => .error e
          | none => parseTagsAux (some (pyStrip n, pyStrip v)) rest
        | _ => .error (.indexError "list index out of range")) := rfl

/-- C4 (amended): the tag-parsing loop: a blank or all-whitespace line is
skipped without terminating folding; a whitespace-led line appends its
trimmed content, with no separator, to the value currently being
accumulated; any other line starts a new tag by splitting the stripped
line on the first colon with name and value both trimmed, emitting the
in-progress tag; the in-progress tag is also emitted at end of stream (so
a final tag with no trailing newline is kept) — but each emission happens
only when the in-progress tag's name is non-empty: the truthiness guard
`if tag_name:` silently discards a tag whose name is empty, at a new tag
start and at end of stream alike; hence a value split across N
continuation lines under a non-empty name parses to the concatenation of
the trimmed fragments. -/
theorem tag_folding :
    (∀ (acc : Option (String × String)) (l : String) (rest : List String),
      (l.toList.isEmpty || pyIsSpaceStr l) = true →
      parseTagsAux acc (l :: rest) = parseTagsAux acc rest) ∧
    (∀ (n v l : String) (rest : List String),
      (l.toList.isEmpty || pyIsSpaceStr l) = false →
      pyIsSpaceChar l.toList.headI = true →
      parseTagsAux (some (n, v)) (l :: rest) =
        parseTagsAux (some (n, v ++ pyStrip l)) rest) ∧
    (∀ (t : String × String) (l : String) (rest : List String) (n v : String),
      (l.toList.isEmpty || pyIsSpaceStr l) = false →
      pyIsSpaceChar l.toList.headI = false →
      pySplitOnce ':' (pyStrip l) = [n, v] →
      t.1 ≠ "" →
      parseTagsAux (some t) (l :: rest) =
        (match parseTagsAux (some (pyStrip n, pyStrip v)) rest with
         | .ok ts => .ok (t :: ts)
         | .error e => .error e)) ∧
    (∀ (t : String × String) (l : String) (rest : List String) (n v : String),
      (l.toList.isEmpty || pyIsSpaceStr l) = false →
      pyIsSpaceChar l.toList.headI = false →
      pySplitOnce ':' (pyStrip l) = [n, v] →
      t.1 = "" →
      parseTagsAux (some t) (l :: rest) =
        parseTagsAux (some (pyStrip n, pyStrip v)) rest) ∧
    (∀ (l : String) (rest : List String) (n v : String),
      (l.toList.isEmpty || pyIsSpaceStr l) = false →
      pyIsSpaceChar l.toList.headI = false →
      pySplitOnce ':' (pyStrip l) = [n, v] →
      parseTagsAux none (l :: rest) = parseTagsAux (some (pyStrip n, pyStrip v)) rest) ∧
    (∀ t : String × String, t.1 ≠ "" → parseTagsAux (some t) [] = .ok [t]) ∧
    (∀ t : String × String, t.1 = "" → parseTagsAux (some t) [] = .ok []) ∧
    (parseTagsAux none [] = .ok []) ∧
    (∀ (n v : String), n ≠ "" → ∀ (conts : List String),
      (∀ l ∈ conts, (l.toList.isEmpty || pyIsSpaceStr l) = false ∧
        pyIsSpaceChar l.toList.headI = true) →
      parseTagsAux (some (n, v)) conts =
        .ok [(n, conts.foldl (fun acc l => acc ++ pyStrip l) v)]) := by
  refine ⟨?_, ?_, ?_, ?_, ?_, ?_, ?_, ?_, ?_⟩
  · intro acc l rest h
    conv_lhs => rw [parseTagsAux_cons]
    rw [if_pos h]
  · intro n v l rest h1 h2
    have hn1 : ¬ ((l.toList.isEmpty || pyIsSpaceStr l) = true) := by rw [h1]; simp
    conv_lhs => rw [parseTagsAux_cons]
    rw [if_neg hn1, if_pos h2]
  · intro t l rest n v h1 h2 h3 ht
    have hn1 : ¬ ((l.toList.isEmpty || pyIsSpaceStr l) = true) := by rw [h1]; simp
    have hn2 : ¬ (pyIsSpaceChar l.toList.headI = true) := by rw [h2]; simp
    conv_lhs => rw [parseTagsAux_cons]
    rw [if_neg hn1, if_neg hn2, h3]
    show (if t.1 = "" then parseTagsAux (some (pyStrip n, pyStrip v)) rest
          else match parseTagsAux (some (pyStrip n, pyStrip v)) rest with
          | Except.ok ts => Except.ok (t :: ts)
          | Except.error e => Except.error e) = _
    rw [if_neg ht]
  · intro t l rest n v h1 h2 h3 ht
    have hn1 : ¬ ((l.toList.isEmpty || pyIsSpaceStr l) = true) := by rw [h1]; simp
    have hn2 : ¬ (pyIsSpaceChar l.toList.headI = true) := by rw [h2]; simp
    conv_lhs => rw [parseTagsAux_cons]
    rw [if_neg hn1, if_neg hn2, h3]
    show (if t.1 = "" then parseTagsAux (some (pyStrip n, pyStrip v)) rest
          else match parseTagsAux (some (pyStrip n, pyStrip v)) rest with
          | Except.ok ts => Except.ok (t :: ts)
          | Except.error e => Except.error e) = _
    rw [if_pos ht]
  · intro l rest n v h1 h2 h3
    have hn1 : ¬ ((l.toList.isEmpty || pyIsSpaceStr l) = true) := by rw [h1]; simp
    have hn2 : ¬ (pyIsSpaceChar l.toList.headI = true) := by rw [h2]; simp
    conv_lhs => rw [parseTagsAux_cons]
    rw [if_neg hn1, if_neg hn2, h3]
  · intro t ht
    show Except.ok (if t.1 = "" then [] else [t]) = Except.ok [t]
    rw [if_neg ht]
  · intro t ht
    show Except.ok (if t.1 = "" then [] else [t]) =
      Except.ok ([] : List (String × String))
    rw [if_pos ht]
  · rfl
  · intro n v hn conts
    induction conts generalizing v with
    | nil =>
      intro _
      show Except.ok (if n = "" then [] else [(n, v)]) = _
      rw [if_neg hn]
      rfl
    | cons c cs ih =>
      intro h
      obtain ⟨h1, h2⟩ := h c (by simp)
      have hn1 : ¬ ((c.toList.isEmpty || pyIsSpaceStr c) = true) := by rw [h1]; simp
      have step : parseTagsAux (some (n, v)) (c :: cs) =
          parseTagsAux (some (n, v ++ pyStrip c)) cs := by
        conv_lhs => rw [parseTagsAux_cons]
        rw [if_neg hn1, if_pos h2]
      rw [step, ih (v ++ pyStrip c) (fun l hl => h l (by simp [hl]))]
      rfl

/-- C4 (counterexample): the in-progress tag is *not* emitted when its
name is empty: the line `:v` starts a tag named `""`, and the truthiness
guard `if tag_name:` silently discards it both at the next tag start and
at end of stream — no `("", "v")` pair is produced. -/
theorem tag_empty_name_discarded :
    parseTags [":v"] = .ok [] ∧
    parseTags [":v", "A: b"] = .ok [("A", "b")] ∧
    (Except.ok [] : Except PyErr (List (String × String))) ≠ .ok [("", "v")] := by
  refine ⟨rfl, rfl, by simp⟩

/-- C4 (witness): a value folded across two continuation fragments; a blank
line skipped without ending the in-progress tag; a colon-split new tag with
trimmed name and value, emitted at end of stream. -/
theorem tag_folding_witness :
    parseTagsAux (some ("A", "x")) [" y", "\tz"] = .ok [("A", "xyz")] ∧
    parseTagsAux (some ("A", "x")) [""] = .ok [("A", "x")] ∧
    parseTagsAux none ["Name : va "] = .ok [("Name", "va")] := by
  refine ⟨?_, ?_, ?_⟩
  · exact tag_folding.2.2.2.2.2.2.2.2 "A" "x" (by decide) [" y", "\tz"] (by decide)
  · exact (tag_folding.1 (some ("A", "x")) "" [] (by decide)).trans
      (tag_folding.2.2.2.2.2.1 ("A", "x") (by decide))
  · exact (tag_folding.2.2.2.2.1 "Name : va " [] "Name " " va"
      (by decide) (by decide) (by decide)).trans
      (tag_folding.2.2.2.2.2.1 ("Name", "va") (by decide))

/-- Helper: a list is a prefix of itself followed by anything. -/
theorem isPrefixOf_append_self (p l : List Char) : List.isPrefixOf p (p ++ l) = true := by
  induction p with
  | nil => simp [List.isPrefixOf]
  | cons a as ih => simp [List.isPrefixOf, ih]

/-- Helper: re-consing the emitted tag preserves success. -/
theorem isOkE_cons_map (t : String × String) (x : Except PyErr (List (String × String))) :
    isOkE (match x with | .ok ts => Except.ok (t :: ts) | .error e => Except.error e) =
      isOkE x := by
  cases x <;> rfl

/-- Helper: the `_parse_tags` loop succeeds exactly on the inputs described
by `tagLinesOk`. -/
theorem parseTagsAux_isOk (lines : List String) :
    ∀ acc : Option (String × String),
      isOkE (parseTagsAux acc lines) = tagLinesOk acc.isSome lines := by
  induction lines with
  | nil => intro acc; cases acc <;> rfl
  | cons l rest ih =>
    intro acc
    rw [parseTagsAux_cons]
    conv_rhs => rw [tagLinesOk]
    by_cases h1 : (l.toList.isEmpty || pyIsSpaceStr l) = true
    · rw [if_pos h1, if_pos h1]
      exact ih acc
    · rw [if_neg h1, if_neg h1]
      by_cases h2 : pyIsSpaceChar l.toList.headI = true
      · rw [if_pos h2, if_pos h2]
        cases acc with
        | none => rfl
        | some nv =>
          rw [ih (some (nv.1, nv.2 ++ pyStrip l))]
          rfl
      · rw [if_neg h2, if_neg h2]
        cases hs : pySplitOnce ':' (pyStrip l) with
        | nil => rfl
        | cons n t =>
          cases t with
          | nil => rfl
          | cons v t2 =>
            cases t2 with
            | nil =>
              cases acc with
              | none =>
                rw [ih (some (pyStrip n, pyStrip v))]
                rfl
              | some t =>
                show isOkE (if t.1 = "" then parseTagsAux (some (pyStrip n, pyStrip v)) rest
                    else match parseTagsAux (some (pyStrip n, pyStrip v)) rest with
                    | Except.ok ts => Except.ok (t :: ts)
                    | Except.error e => Except.error e) = _
                by_cases ht : t.1 = ""
                · rw [if_pos ht, ih (some (pyStrip n, pyStrip v))]
                  rfl
                · rw [if_neg ht, isOkE_cons_map, ih (some (pyStrip n, pyStrip v))]
                  rfl
            | cons w tl => rfl

/-- C5 (counterexample): the single line `hello` is valid UTF-8 (it is
plain ASCII), yet tag-file parsing does not run to completion — it raises
an `IndexError` because the line contains no colon. -/
theorem parse_tags_error_on_valid_utf8 :
    parseTags ["hello"] = .error (.indexError "list index out of range") := rfl

/-- C5 (amended): the parser performs no UTF-8 decoding step at all (it
consumes the raw bytes, so decoding can never fail); a byte-order mark on
the first line is stripped silently rather than rejected; and parsing runs
to completion exactly on the inputs where, after the byte-order-mark strip,
every tag-starting line contains a colon and no continuation line appears
before the first tag. -/
theorem parse_tags_totality :
    (∀ lines, isOkE (parseTags lines) = tagLinesOk false (stripBomFirst lines)) ∧
    (∀ (l : String) (ls : List String),
      (l = "" ∨ bomChars.contains l.toList.headI = false) →
      parseTags ((bomStr ++ l) :: ls) = parseTags (l :: ls)) := by
  constructor
  · intro lines
    exact parseTagsAux_isOk (stripBomFirst lines) none
  · intro l ls h
    have hcon : ∀ c cs, l.toList = c :: cs → c ∉ bomChars := by
      intro c cs hl
      rcases h with h | h
      · rw [h] at hl
        simp at hl
      · rw [hl] at h
        simpa using h
    have hpre : pyStartsWith (bomStr ++ l) bomStr = true := by
      show List.isPrefixOf bomStr.toList (bomStr ++ l).toList = true
      rw [show (bomStr ++ l).toList = bomStr.toList ++ l.toList from
        String.data_append bomStr l]
      exact isPrefixOf_append_self _ _
    have hnot : pyStartsWith l bomStr = false := by
      show List.isPrefixOf bomStr.toList l.toList = false
      cases hl : l.toList with
      | nil => rfl
      | cons c cs =>
        have hc := hcon c cs hl
        have hne : ¬ ('\xef' = c) := by
          intro he
          exact hc (he ▸ (by simp [bomChars]))
        show List.isPrefixOf bomChars (c :: cs) = false
        simp [bomChars, List.isPrefixOf, hne]
    have hstrip : pyLStripSet bomChars (bomStr ++ l) = l := by
      show String.mk (((bomStr ++ l).toList).dropWhile bomChars.contains) = l
      rw [show (bomStr ++ l).toList = bomStr.toList ++ l.toList from
        String.data_append bomStr l]
      rw [List.dropWhile_append_of_pos (by decide)]
      have hdw : List.dropWhile bomChars.contains l.toList = l.toList := by
        cases hl : l.toList with
        | nil => rfl
        | cons c cs => simp [List.dropWhile, hcon c cs hl]
      rw [hdw]
      rfl
    show parseTagsAux none
        ((if pyStartsWith (bomStr ++ l) bomStr then pyLStripSet bomChars (bomStr ++ l)
          else (bomStr ++ l)) :: ls) =
      parseTagsAux none
        ((if pyStartsWith l bomStr then pyLStripSet bomChars l else l) :: ls)
    rw [if_pos hpre, hstrip, if_neg (by rw [hnot]; simp)]

/-- C6: manifest-line handling: a stripped non-blank, non-`#`-prefixed line
that does not split on the first whitespace run into exactly two fields
yields a malformed-entry diagnostic and is skipped with the entries
unchanged, and the fold then moves on to the remaining lines, never
aborting (the loader is total — it returns diagnostics, it cannot fail); a
two-field line is inserted under the key obtained by stripping the path
field's leading `*`s and normalizing; the duplicate diagnostic fires
exactly when the same algorithm already has the same path, while the same
path under a different algorithm merges into the existing entry with no
duplicate diagnostic. -/
theorem manifest_line_handling :
    (∀ (alg : String) (st : Entries × List ManifestDiag) (raw : String),
      pyStrip raw ≠ "" → pyStartsWith (pyStrip raw) "#" = false →
      (pySplitNone1 (pyStrip raw)).length ≠ 2 →
      loadManifestLine alg st raw = (st.1, st.2 ++ [.malformed alg (pyStrip raw)])) ∧
    (∀ (alg : String) (st : Entries × List ManifestDiag) (raw h p : String),
      pyStrip raw ≠ "" → pyStartsWith (pyStrip raw) "#" = false →
      pySplitNone1 (pyStrip raw) = [h, p] →
      loadManifestLine alg st raw =
        ((manifestInsert st.1 alg (posixNormpath (pyLStripSet ['*'] p)) h).1,
         st.2 ++ (if (manifestInsert st.1 alg (posixNormpath (pyLStripSet ['*'] p)) h).2
                  then [.duplicate alg (posixNormpath (pyLStripSet ['*'] p))] else []))) ∧
    (∀ (alg : String) (st : Entries × List ManifestDiag) (raw : String) (ls : List String),
      loadManifestLines alg st (raw :: ls) =
        loadManifestLines alg (loadManifestLine alg st raw) ls) ∧
    (∀ (entries : Entries) (alg path digest : String) (algmap : List (String × String)),
      alookup path entries = some algmap → alookup alg algmap = none →
      manifestInsert entries alg path digest =
        (aset path (aset alg digest algmap) entries, false)) ∧
    (∀ (entries : Entries) (alg path digest : String) (algmap : List (String × String))
      (old : String),
      alookup path entries = some algmap → alookup alg algmap = some old →
      manifestInsert entries alg path digest =
        (aset path (aset alg digest algmap) entries, true)) ∧
    (∀ (entries : Entries) (alg path digest : String),
      alookup path entries = none →
      manifestInsert entries alg path digest = (aset path [(alg, digest)] entries, false)) := by
  refine ⟨?_, ?_, ?_, ?_, ?_, ?_⟩
  · intro alg st raw h1 h2 hlen
    simp only [loadManifestLine]
    rw [if_neg (by simp [h1, h2])]
    cases hs : pySplitNone1 (pyStrip raw) with
    | nil => rfl
    | cons a t =>
      cases t with
      | nil => rfl
      | cons b t2 =>
        cases t2 with
        | nil => exact absurd (by rw [hs]; rfl) hlen
        | cons cc tl => rfl
  · intro alg st raw h p h1 h2 hs
    simp only [loadManifestLine]
    rw [if_neg (by simp [h1, h2]), hs]
  · intro alg st raw ls
    rfl
  · intro entries alg path digest algmap h1 h2
    simp [manifestInsert, h1, h2]
  · intro entries alg path digest algmap old h1 h2
    simp [manifestInsert, h1, h2]
  · intro entries alg path digest h1
    simp [manifestInsert, h1]

/-- C6 (witness): a one-field line is reported malformed and skipped; the
line `abc123  *./data/x.txt` is keyed under the `*`-stripped normalized
path `data/x.txt`; the same path under a second algorithm merges into one
entry without a duplicate diagnostic; the same path under the same
algorithm fires the duplicate diagnostic. -/
theorem manifest_line_handling_witness :
    loadManifestLine "md5" ([], []) "badline" =
      ([], [.malformed "md5" "badline"]) ∧
    loadManifestLine "md5" ([], []) "abc123  *./data/x.txt" =
      ([("data/x.txt", [("md5", "abc123")])], []) ∧
    manifestInsert [("data/x", [("md5", "h1")])] "sha1" "data/x" "h2" =
      ([("data/x", [("md5", "h1"), ("sha1", "h2")])], false) ∧
    manifestInsert [("data/x", [("md5", "h1")])] "md5" "data/x" "h2" =
      ([("data/x", [("md5", "h2")])], true) := by
  refine ⟨?_, ?_, ?_, ?_⟩
  · exact manifest_line_handling.1 "md5" ([], []) "badline"
      (by decide) (by decide) (by decide)
  · exact manifest_line_handling.2.1 "md5" ([], []) "abc123  *./data/x.txt"
      "abc123" "*./data/x.txt" (by decide) (by decide) (by decide)
  · exact manifest_line_handling.2.2.2.1 [("data/x", [("md5", "h1")])] "sha1" "data/x" "h2"
      [("md5", "h1")] rfl rfl
  · exact manifest_line_handling.2.2.2.2.1 [("data/x", [("md5", "h1")])] "md5" "data/x" "h2"
      [("md5", "h1")] "h1" rfl rfl

/-- C8: loading a bag from a directory: an absent `bagit.txt` raises the
missing-file error; a declared version outside {0.95, 0.96} raises the
unsupported-version error; an encoding that is not case-insensitively
`utf-8` raises the unsupported-encoding error; and an absent metadata tag
file (`bag-info.txt` for 0.96, `package-info.txt` for 0.95) is not an
error — the bag loads with empty metadata. -/
theorem open_bag_checks (path : String) (d : BagDir) :
    (d.bagitLines = none →
      Bag.openBag path d =
        .error (.bagError ("No bagit.txt found: " ++ path ++ "/bagit.txt"))) ∧
    (∀ blines tags version encoding,
      d.bagitLines = some blines → loadTagFile blines = .ok tags →
      alookup "BagIt-Version" tags = some version →
      alookup "Tag-File-Character-Encoding" tags = some encoding →
      version ≠ "0.95" → version ≠ "0.96" →
      Bag.openBag path d = .error (.bagError ("Unsupported bag version: " ++ version))) ∧
    (∀ blines tags version encoding,
      d.bagitLines = some blines → loadTagFile blines = .ok tags →
      alookup "BagIt-Version" tags = some version →
      alookup "Tag-File-Character-Encoding" tags = some encoding →
      (version = "0.95" ∨ version = "0.96") → pyLower encoding ≠ "utf-8" →
      Bag.openBag path d =
        .error (.bagValidationError ("Unsupported encoding: " ++ encoding) [])) ∧
    (∀ blines tags encoding,
      d.bagitLines = some blines → loadTagFile blines = .ok tags →
      alookup "BagIt-Version" tags = some "0.96" →
      alookup "Tag-File-Character-Encoding" tags = some encoding →
      pyLower encoding = "utf-8" → d.bagInfoLines = none →
      Bag.openBag path d =
        .ok ⟨path, tags, [], (loadManifests d).2.1, (loadManifests d).1,
          some "bag-info.txt", "0.96", encoding⟩) ∧
    (∀ blines tags encoding,
      d.bagitLines = some blines → loadTagFile blines = .ok tags →
      alookup "BagIt-Version" tags = some "0.95" →
      alookup "Tag-File-Character-Encoding" tags = some encoding →
      pyLower encoding = "utf-8" → d.packageInfoLines = none →
      Bag.openBag path d =
        .ok ⟨path, tags, [], (loadManifests d).2.1, (loadManifests d).1,
          some "package-info.txt", "0.95", encoding⟩) := by
  refine ⟨?_, ?_, ?_, ?_, ?_⟩
  · intro hb
    simp only [Bag.openBag, hb]
  · intro blines tags version encoding hb hload hv he h95 h96
    simp only [Bag.openBag, hb, hload, hv, he, h95, h96, if_false]
  · intro blines tags version encoding hb hload hv he hver henc
    rcases hver with hver | hver <;> subst hver <;>
      simp only [Bag.openBag, hb, hload, hv, he] <;>
      simp [if_pos henc]
  · intro blines tags encoding hb hload hv he henc hinfo
    have hne : ¬ (pyLower encoding ≠ "utf-8") := fun hx => hx henc
    simp only [Bag.openBag, hb, hload, hv, he]
    simp only [if_neg hne]
    simp [hinfo]
  · intro blines tags encoding hb hload hv he henc hinfo
    have hne : ¬ (pyLower encoding ≠ "utf-8") := fun hx => hx henc
    simp only [Bag.openBag, hb, hload, hv, he]
    simp only [if_neg hne]
    simp [hinfo]

/-- C8 (witness): a concrete root with `bagit.txt` declaring 0.96/UTF-8, an
md5 manifest, and no `bag-info.txt` loads into a bag with empty metadata. -/
theorem open_bag_checks_witness :
    Bag.openBag "b"
        ⟨some ["BagIt-Version: 0.96", "Tag-File-Character-Encoding: UTF-8"],
         none, none, some ["abc123  data/x"], none⟩ =
      .ok ⟨"b", [("BagIt-Version", "0.96"), ("Tag-File-Character-Encoding", "UTF-8")], [],
        [("data/x", [("md5", "abc123")])], ["md5"], some "bag-info.txt", "0.96", "UTF-8"⟩ := by
  exact (open_bag_checks "b"
      ⟨some ["BagIt-Version: 0.96", "Tag-File-Character-Encoding: UTF-8"],
       none, none, some ["abc123  data/x"], none⟩).2.2.2.1
    ["BagIt-Version: 0.96", "Tag-File-Character-Encoding: UTF-8"]
    [("BagIt-Version", "0.96"), ("Tag-File-Character-Encoding", "UTF-8")]
    "UTF-8" rfl rfl rfl rfl rfl rfl

/-- Helper: a successful `alookup` locates an actual element. -/
theorem alookup_mem {α : Type} (k : String) (v : α) :
    ∀ l : List (String × α), alookup k l = some v → (k, v) ∈ l := by
  intro l
  induction l with
  | nil => intro h; simp [alookup] at h
  | cons kv rest ih =>
    intro h
    obtain ⟨k', v'⟩ := kv
    simp only [alookup] at h
    by_cases hk : k' = k
    · rw [if_pos hk] at h
      injection h with hv
      subst hk
      subst hv
      exact List.mem_cons_self _ _
    · rw [if_neg hk] at h
      exact List.mem_cons_of_mem _ (ih h)

/-- Helper: membership after a dict assignment comes from the new pair or
from the old list. -/
theorem aset_mem {α : Type} (k k' : String) (v v' : α) :
    ∀ l : List (String × α), (k, v) ∈ aset k' v' l →
      (k = k' ∧ v = v') ∨ (k, v) ∈ l := by
  intro l
  induction l with
  | nil =>
    intro h
    simp [aset] at h
    exact Or.inl h
  | cons kv rest ih =>
    intro h
    obtain ⟨k0, v0⟩ := kv
    simp only [aset] at h
    by_cases hk : k0 = k'
    · rw [if_pos hk] at h
      rcases List.mem_cons.mp h with h | h
      · injection h with h1 h2
        exact Or.inl ⟨h1, h2⟩
      · exact Or.inr (List.mem_cons_of_mem _ h)
    · rw [if_neg hk] at h
      rcases List.mem_cons.mp h with h | h
      · exact Or.inr (h ▸ List.mem_cons_self _ _)
      · rcases ih h with h | h
        · exact Or.inl h
        · exact Or.inr (List.mem_cons_of_mem _ h)

/-- Helper: inserting an entry for an algorithm of `S` preserves the
algorithm bound on the entry map. -/
theorem manifestInsert_algsIn (S : List String) (entries : Entries)
    (alg path digest : String) (hinv : entriesAlgsIn S entries) (halg : alg ∈ S) :
    entriesAlgsIn S (manifestInsert entries alg path digest).1 := by
  unfold manifestInsert
  cases hl : alookup path entries with
  | some algmap =>
    intro p am hmem a hd hmem2
    rcases aset_mem p path am (aset alg digest algmap) entries hmem with ⟨hp, ham⟩ | hmem' 
    · subst hp
      subst ham
      rcases aset_mem a alg hd digest algmap hmem2 with ⟨ha, _⟩ | hmem2'
      · exact ha ▸ halg
      · exact hinv p algmap (alookup_mem p algmap entries hl) a hd hmem2'
    · exact hinv p am hmem' a hd hmem2
  | none =>
    intro p am hmem a hd hmem2
    rcases aset_mem p path am [(alg, digest)] entries hmem with ⟨hp, ham⟩ | hmem'
    · subst hp
      subst ham
      rcases List.mem_singleton.mp hmem2 with h
      injection h with h1 h2
      exact h1 ▸ halg
    · exact hinv p am hmem' a hd hmem2

/-- Helper: processing one manifest line preserves the algorithm bound. -/
theorem loadManifestLine_algsIn (S : List String) (alg : String)
    (st : Entries × List ManifestDiag) (raw : String)
    (hinv : entriesAlgsIn S st.1) (halg : alg ∈ S) :
    entriesAlgsIn S (loadManifestLine alg st raw).1 := by
  unfold loadManifestLine
  by_cases hb : (pyStrip raw = "" || pyStartsWith (pyStrip raw) "#") = true
  · rw [if_pos hb]
    exact hinv
  · rw [if_neg hb]
    cases hs : pySplitNone1 (pyStrip raw) with
    | nil => exact hinv
    | cons a t =>
      cases t with
      | nil => exact hinv
      | cons b t2 =>
        cases t2 with
        | nil => exact manifestInsert_algsIn S st.1 alg _ a hinv halg
        | cons cc tl => exact hinv

/-- Helper: processing a whole manifest file preserves the algorithm bound. -/
theorem loadManifestLines_algsIn (S : List String) (alg : String) (halg : alg ∈ S) :
    ∀ (lines : List String) (st : Entries × List ManifestDiag),
      entriesAlgsIn S st.1 → entriesAlgsIn S (loadManifestLines alg st lines).1 := by
  intro lines
  induction lines with
  | nil => intro st hinv; exact hinv
  | cons raw ls ih =>
    intro st hinv
    exact ih (loadManifestLine alg st raw) (loadManifestLine_algsIn S alg st raw hinv halg)

/-- Helper: the manifest-loading fold appends the processed algorithms in
order and keeps every entry's algorithms inside `S`. -/
theorem loadManifests_fold (d : BagDir) (S : List String) :
    ∀ (algsList : List String) (init : List String × Entries × List ManifestDiag),
      (∀ a ∈ algsList, a ∈ S) → entriesAlgsIn S init.2.1 →
      ((algsList.foldl (fun st a =>
          let r := loadManifestLines a (st.2.1, st.2.2) ((d.manifestLinesFor a).getD [])
          (st.1 ++ [a], r.1, r.2)) init).1 = init.1 ++ algsList ∧
       entriesAlgsIn S ((algsList.foldl (fun st a =>
          let r := loadManifestLines a (st.2.1, st.2.2) ((d.manifestLinesFor a).getD [])
          (st.1 ++ [a], r.1, r.2)) init).2.1)) := by
  intro algsList
  induction algsList with
  | nil =>
    intro init _ hinv
    exact ⟨(List.append_nil _).symm, hinv⟩
  | cons a as ih =>
    intro init ha hinv
    have h1 : a ∈ S := ha a (by simp)
    have step := ih (init.1 ++ [a],
        loadManifestLines a (init.2.1, init.2.2) ((d.manifestLinesFor a).getD []))
      (fun x hx => ha x (by simp [hx]))
      (loadManifestLines_algsIn S a h1 ((d.manifestLinesFor a).getD [])
        (init.2.1, init.2.2) hinv)
    exact ⟨step.1.trans (by simp), step.2⟩

/-- Helper: `_load_manifests` declares exactly the present algorithms, in
`checksum_algos` order, and every algorithm appearing in the loaded entry
map is one of them. -/
theorem loadManifests_spec (d : BagDir) :
    (loadManifests d).1 = presentAlgos d ∧
    entriesAlgsIn (presentAlgos d) (loadManifests d).2.1 := by
  have h := loadManifests_fold d (presentAlgos d) (presentAlgos d) ([], [], [])
    (fun a ha => ha) (fun p am hmem => absurd hmem (List.not_mem_nil _))
  exact ⟨h.1.trans (List.nil_append _), h.2⟩

/-- C9: for every loaded bag, the declared algorithm list is exactly the
set of algorithms whose `manifest-<algorithm>.txt` exists in the bag root,
and every algorithm recorded in the loaded entries is one of them — an
algorithm with no manifest file is never consulted during validation (the
per-entry check builds hashers from `algs` and re-hashes only algorithms
recorded in the entries). -/
theorem declared_algs_from_manifests (path : String) (d : BagDir) (b : Bag)
    (h : Bag.openBag path d = .ok b) :
    b.algs = presentAlgos d ∧
    ∀ p am, (p, am) ∈ b.entries → ∀ a hd, (a, hd) ∈ am → a ∈ presentAlgos d := by
  unfold Bag.openBag at h
  repeat' split at h
  all_goals try (exact Except.noConfusion h)
  obtain rfl : _ = b := Except.ok.inj h
  constructor
  · exact (loadManifests_spec d).1
  · intro p am hmem a hd hmem2
    exact (loadManifests_spec d).2 p am hmem a hd hmem2

/-- C9 (witness): loading the concrete root `dir9`, which has both an md5
and a sha1 manifest, yields declared algorithms `[md5, sha1]` with every
entry algorithm among them. -/
theorem declared_algs_from_manifests_witness :
    bag9.algs = presentAlgos dir9 ∧
    (∀ p am, (p, am) ∈ bag9.entries → ∀ a hd, (a, hd) ∈ am → a ∈ presentAlgos dir9) :=
  declared_algs_from_manifests "b" dir9 bag9 rfl

/-- C5 (witness): a first line carrying a byte-order mark parses exactly as
its mark-free form does. -/
theorem parse_tags_totality_witness :
    parseTags [bomStr ++ "A: b"] = parseTags ["A: b"] :=
  parse_tags_totality.2 "A: b" [] (Or.inr (by decide))
